import Mathlib

/-!
GIFSpot backend: record store, connection handler and vote counting

A shallow embedding of `src/backend/backend.go` and `src/backend/raft.go`.

* `uint64` values (`Gif.Index`, the `ticket` and `done` counters) are natural
  numbers, with the wrap-around of `atomic.AddUint64` and of `t+1` written as
  an explicit `% U64`.
* Go's `int` values (`Request` fields, `LeaderNode`, `currentNodeID`) are
  integers.
* A run-time panic (index out of range, slice bounds out of range) and
  `log.Fatal` stop the whole process; they are modelled as a `Fault`.
* `encoding/json` is the standard library: decoding a record payload is a
  parameter `dec`, and a marshalled value is kept as the value itself (`Json`).
* `Put` run alone works on the slice as a list. Concurrent `Put` calls work on
  shared memory with slice values and backing arrays, where the `append` of
  line 47 is a read and a later store; the capacity the runtime picks on
  reallocation is a parameter `grow`.
-/

namespace GIFSpot

/-! ## The record store (`backend.go`, lines 14-58) -/

/-- Number of values of Go's `uint64`. -/
def U64 : Nat := 18446744073709551616

/-- The struct `Gif`. -/
structure Gif where
  Name : String
  Description : String
  Url : String
  Deleted : Bool
  Index : Nat
deriving DecidableEq, Repr

/-- Method `Gif.Delete`: sets the `Deleted` attribute to true. -/
def Gif.Delete (gif : Gif) : Gif := { gif with Deleted := true }

/-- The struct `Gifs`; the two pointers to counters are the counters. -/
structure Gifs where
  Data : List Gif
  done : Nat
  ticket : Nat
deriving DecidableEq, Repr

/-- How the process can stop abnormally. -/
inductive Fault where
  /-- Run-time panic "index out of range" of `s[i]`. -/
  | indexOutOfRange
  /-- Run-time panic "slice bounds out of range" of `s[:n]`. -/
  | sliceBounds
  /-- A call to `log.Fatal`. -/
  | fatal
  /-- The publish loop of `Put` can never leave: run alone, its
  compare-and-swap failed and no other goroutine changes `done`. -/
  | spin
deriving DecidableEq, Repr

/-- Function `NewGifs`: an empty slice and two fresh counters at zero. -/
def NewGifs : Gifs := { Data := [], done := 0, ticket := 0 }

/-- The literal `Gif{Deleted: true}` that `Put` appends. -/
def placeholder : Gif :=
  { Name := "", Description := "", Url := "", Deleted := true, Index := 0 }

/-- First step of `Put`: `t := atomic.AddUint64(gifs.ticket, 1) - 1`.
Returns `t` and the store with the incremented ticket. -/
def fetchTicket (g : Gifs) : Nat × Gifs :=
  let n := (g.ticket + 1) % U64
  ((n + U64 - 1) % U64, { g with ticket := n })

/-- Second step of `Put`: `gifs.Data = append(gifs.Data, Gif{Deleted: true})`. -/
def appendEmpty (g : Gifs) : Gifs :=
  { g with Data := g.Data ++ [placeholder] }

/-- Third step of `Put`: `gif.Index = t; gifs.Data[t] = gif`.
`none` is the index-out-of-range panic. -/
def writeSlot (g : Gifs) (t : Nat) (gif : Gif) : Option Gifs :=
  if t < g.Data.length then
    some { g with Data := g.Data.set t { gif with Index := t } }
  else none

/-- One attempt of `atomic.CompareAndSwapUint64(gifs.done, t, t+1)`:
whether it swapped, and the store afterwards. -/
def casDone (g : Gifs) (t : Nat) : Bool × Gifs :=
  if g.done = t then (true, { g with done := (t + 1) % U64 }) else (false, g)

/-- Method `Gifs.Put` run to completion with no other goroutine touching the
store. A failed first compare-and-swap then fails forever (`Fault.spin`). -/
def Put (g : Gifs) (gif : Gif) : Except Fault Gifs :=
  let tg := fetchTicket g
  let g2 := appendEmpty tg.2
  match writeSlot g2 tg.1 gif with
  | none => .error .indexOutOfRange
  | some g3 =>
    let cg := casDone g3 tg.1
    if cg.1 then .ok cg.2 else .error .spin

/-- Method `Gifs.GetDone`: `gifs.Data[:done]`. The capacity of the slice is not
tracked, so a bound beyond the length is taken as the slice-bounds panic. -/
def GetDone (g : Gifs) : Except Fault (List Gif) :=
  if g.done ≤ g.Data.length then .ok (g.Data.take g.done) else .error .sliceBounds

/-- Calls of `Put`, one per record, each completed before the next starts. -/
def putAll (g : Gifs) : List Gif → Except Fault Gifs
  | [] => .ok g
  | r :: rs =>
    match Put g r with
    | .ok g2 => putAll g2 rs
    | .error e => .error e

/-! ## Concurrent `Put` calls as interleaved steps on shared memory -/

/-- A Go slice value: the backing array it points to (by number), its length
and its capacity. -/
structure Slice where
  arr : Nat
  len : Nat
  cap : Nat
deriving DecidableEq, Repr

/-- The memory shared by the goroutines that run `Put` on one `Gifs`: the
backing arrays allocated so far, numbered in order of allocation, the slice
value stored in the field `Data`, and the two counters. -/
structure Mem where
  heap : List (List Gif)
  Data : Slice
  done : Nat
  ticket : Nat
deriving DecidableEq, Repr

/-- The store as a goroutine reads it from shared memory: the first `len`
cells of the array that `Data` points to, and the counters. -/
def Mem.gifs (m : Mem) : Gifs :=
  { Data := ((m.heap[m.Data.arr]?).getD []).take m.Data.len,
    done := m.done, ticket := m.ticket }

/-- Shared memory after `NewGifs`: `Data` is the nil slice, nothing is
allocated, both counters are zero. -/
def newMem : Mem :=
  { heap := [], Data := { arr := 0, len := 0, cap := 0 }, done := 0, ticket := 0 }

/-- The capacity Go's runtime picks for a small slice when `append` has to
reallocate: the needed length if that is more than twice the old capacity,
else twice the old capacity. It belongs to the runtime, not to this
repository, and enters the model as the parameter `grow`. -/
def growslice (oldCap newLen : Nat) : Nat :=
  if 2 * oldCap < newLen then newLen else 2 * oldCap

/-- Evaluation of the expression `append(s, x)` for the slice value `s` that
was read: with spare capacity the cell after the length is written in place;
otherwise a new array of capacity `grow s.cap (s.len + 1)` is allocated, the
first `len` cells are copied into it and `x` is put after them. Returns the
heap afterwards and the slice value `append` returns, which is not stored
anywhere yet. -/
def evalAppend (grow : Nat → Nat → Nat) (heap : List (List Gif)) (s : Slice) (x : Gif) :
    List (List Gif) × Slice :=
  if s.len + 1 ≤ s.cap then
    (heap.set s.arr (((heap[s.arr]?).getD []).set s.len x), { s with len := s.len + 1 })
  else
    let newCap := grow s.cap (s.len + 1)
    let fresh := ((heap[s.arr]?).getD []).take s.len ++ [x] ++
      List.replicate (newCap - (s.len + 1))
        { Name := "", Description := "", Url := "", Deleted := false, Index := 0 }
    (heap ++ [fresh], { arr := heap.length, len := s.len + 1, cap := newCap })

/-- Where a goroutine running `Put` stands: before line 45; after the
fetch-and-increment; after evaluating `append(...)` of line 47 but before
storing its result in `gifs.Data`; after that store; after the slot write
(spinning on the compare-and-swap); and returned. -/
inductive PC where
  | start
  | ticketed
  | grown
  | appended
  | written
  | finished
deriving DecidableEq, Repr

/-- One goroutine running `Put(gif)`: its argument, its program point, its
local variable `t` (meaningful once the ticket is drawn) and the slice value
its `append` returned (meaningful at `PC.grown`). -/
structure Writer where
  gif : Gif
  pc : PC
  t : Nat
  s : Slice
deriving DecidableEq, Repr

/-- The shared memory, the goroutines running `Put`, and whether the process
has died of a run-time panic. -/
structure Sys where
  mem : Mem
  ws : List Writer
  crashed : Bool
deriving DecidableEq, Repr

/-- The next step of one writer on shared memory; `none` is the
index-out-of-range panic of `gifs.Data[t] = gif`. Line 47,
`gifs.Data = append(gifs.Data, Gif{Deleted: true})`, is not synchronised: it
is the evaluation of `append` on the slice value read from `gifs.Data`
(`PC.ticketed`) and, later, the store of the result (`PC.grown`). A failed
compare-and-swap leaves the writer where it is (`runtime.Gosched()`, retry). -/
def stepWriter (grow : Nat → Nat → Nat) (m : Mem) (w : Writer) : Option (Mem × Writer) :=
  match w.pc with
  | .start =>
    let tg := fetchTicket m.gifs
    some ({ m with ticket := tg.2.ticket }, { w with pc := .ticketed, t := tg.1 })
  | .ticketed =>
    let hs := evalAppend grow m.heap m.Data placeholder
    some ({ m with heap := hs.1 }, { w with pc := .grown, s := hs.2 })
  | .grown => some ({ m with Data := w.s }, { w with pc := .appended })
  | .appended =>
    if w.t < m.Data.len then
      let cells := ((m.heap[m.Data.arr]?).getD []).set w.t { w.gif with Index := w.t }
      some ({ m with heap := m.heap.set m.Data.arr cells }, { w with pc := .written })
    else none
  | .written =>
    let cg := casDone m.gifs w.t
    if cg.1 then some ({ m with done := cg.2.done }, { w with pc := .finished })
    else some (m, w)
  | .finished => some (m, w)

/-- The scheduler lets writer number `i` take its next step. Nothing moves
once the process has crashed, and a number that names no writer is skipped. -/
def step (grow : Nat → Nat → Nat) (s : Sys) (i : Nat) : Sys :=
  if s.crashed then s else
  match s.ws[i]? with
  | none => s
  | some w =>
    match stepWriter grow s.mem w with
    | none => { s with crashed := true }
    | some mw => { mem := mw.1, ws := s.ws.set i mw.2, crashed := false }

/-- A schedule is the list of writer numbers in the order they take steps. -/
def run (grow : Nat → Nat → Nat) (s : Sys) (sched : List Nat) : Sys :=
  sched.foldl (step grow) s

/-- Shared memory fresh from `NewGifs` and one `Put` call per record, none
started. -/
def init (inputs : List Gif) : Sys :=
  { mem := newMem,
    ws := inputs.map (fun r =>
      { gif := r, pc := .start, t := 0, s := { arr := 0, len := 0, cap := 0 } }),
    crashed := false }

/-! ## Requests and the connection handler (`backend.go`, lines 60-208) -/

/-- The struct `Request`. -/
structure Request where
  Action : Int
  Data : String
  Index : Int
  Vote : Int
  Term : Int
  SenderID : Int
deriving DecidableEq, Repr

/-- A value handed to `json.Marshal`, standing for its encoding. -/
inductive Json where
  | gifs (l : List Gif)
  | request (r : Request)
deriving DecidableEq, Repr

/-- What `dec.Decode(&gif)` of the standard library can answer: a decoded
value, `io.EOF` (nothing decoded), or another error. -/
inductive Decoded where
  | value (g : Gif)
  | eof
  | err
deriving DecidableEq, Repr

/-- The package-level variables `gifs`, `currentNodeID` and `LeaderNode`. -/
structure Node where
  gifs : Gifs
  currentNodeID : Int
  LeaderNode : Int
deriving DecidableEq, Repr

/-- The globals together with what has been written on the connection
(`conn.Write`) and sent on the channel `votes`, in order. -/
structure Conn where
  node : Node
  written : List Json
  sent : List Request
deriving DecidableEq, Repr

/-- How the handler ends: it returns, or the process stops with a fault in
the given state. -/
inductive Outcome where
  | ok (c : Conn)
  | fault (f : Fault) (c : Conn)
deriving DecidableEq, Repr

/-- Sequencing of handler statements: a fault ends the handler. -/
def Outcome.andThen (o : Outcome) (f : Conn → Outcome) : Outcome :=
  match o with
  | .ok c => f c
  | .fault e c => .fault e c

/-- Function `parseGifJson`: `io.EOF` leaves the zero `Gif`, any other
decoding error is `log.Fatal`. -/
def parseGifJson (dec : String → Decoded) (gifJson : String) : Except Fault Gif :=
  match dec gifJson with
  | .value g => .ok g
  | .eof => .ok { Name := "", Description := "", Url := "", Deleted := false, Index := 0 }
  | .err => .error .fatal

/-- Function `allGifsJson`: the encoding of `gifs.GetDone()`. -/
def allGifsJson (g : Gifs) : Except Fault Json :=
  match GetDone g with
  | .ok l => .ok (.gifs l)
  | .error e => .error e

/-- Function `encodeRequest`: the encoding of the request it is given. -/
def encodeRequest (request : Request) : Json := .request request

/-- The statements `jsonBytes := allGifsJson(); conn.Write(jsonBytes)`. -/
def writeAllGifs (c : Conn) : Outcome :=
  match allGifsJson c.node.gifs with
  | .ok j => .ok { c with written := c.written ++ [j] }
  | .error e => .fault e c

/-- The assignment `s[i] = x` on a slice with an `int` index; `none` is the
index-out-of-range panic. -/
def setAt (l : List Gif) (i : Int) (x : Gif) : Option (List Gif) :=
  if 0 ≤ i ∧ i < l.length then some (l.set i.toNat x) else none

/-- The element `s[i]` of a slice with an `int` index; `none` is the
index-out-of-range panic. -/
def getAt (l : List Gif) (i : Int) : Option Gif :=
  if 0 ≤ i ∧ i < l.length then l[i.toNat]? else none

/-- Branch `request.Action == 0` (INDEX). -/
def onIndex (c : Conn) : Outcome := writeAllGifs c

/-- Branch `request.Action == 1` (CREATE). -/
def onCreate (dec : String → Decoded) (request : Request) (c : Conn) : Outcome :=
  match parseGifJson dec request.Data with
  | .error e => .fault e c
  | .ok newGif =>
    match Put c.node.gifs newGif with
    | .error e => .fault e c
    | .ok g => writeAllGifs { c with node := { c.node with gifs := g } }

/-- Branch `request.Action == 2` (UPDATE):
`gifs.Data[request.Index] = newGif`. -/
def onUpdate (dec : String → Decoded) (request : Request) (c : Conn) : Outcome :=
  match parseGifJson dec request.Data with
  | .error e => .fault e c
  | .ok newGif =>
    match setAt c.node.gifs.Data request.Index newGif with
    | none => .fault .indexOutOfRange c
    | some d =>
      writeAllGifs { c with node := { c.node with gifs := { c.node.gifs with Data := d } } }

/-- Branch `request.Action == 3` (DESTROY): `gifs.Data[index].Delete()`. -/
def onDestroy (request : Request) (c : Conn) : Outcome :=
  let index := request.Index
  match getAt c.node.gifs.Data index with
  | none => .fault .indexOutOfRange c
  | some gif =>
    writeAllGifs { c with node := { c.node with gifs :=
      { c.node.gifs with Data := c.node.gifs.Data.set index.toNat gif.Delete } } }

/-- The local variable `response` of the vote-request branch, as built by
lines 190-197. -/
def voteResponse (node : Node) (request : Request) : Request :=
  let response : Request :=
    { Action := 5, Data := "", Index := 0, Vote := node.LeaderNode, Term := 0,
      SenderID := node.currentNodeID }
  if node.LeaderNode = -1 then { response with Vote := request.SenderID } else response

/-- Branch `request.Action == 4` (vote request). The source builds `response`
and then calls `encodeRequest(&request)`. -/
def onVoteRequest (request : Request) (c : Conn) : Outcome :=
  let _response := voteResponse c.node request
  let jsonBytes := encodeRequest request
  .ok { c with written := c.written ++ [jsonBytes] }

/-- Branch `request.Action == 5` (vote): `votes <- request`. -/
def onVote (request : Request) (c : Conn) : Outcome :=
  .ok { c with sent := c.sent ++ [request] }

/-- An `if request.Action == a { ... }` statement. -/
def whenAction (request : Request) (a : Int) (body : Conn → Outcome) (c : Conn) : Outcome :=
  if request.Action = a then body c else .ok c

/-- Function `handleConnection` from line 145 on, for the request that lines
135-143 read and decoded, run with no other goroutine touching the store. -/
def handleConnection (dec : String → Decoded) (node : Node) (request : Request) : Outcome :=
  let c0 : Conn := { node := node, written := [], sent := [] }
  if request.Action = -1 then .ok c0 else
  ((((((Outcome.ok c0).andThen (whenAction request 0 onIndex)).andThen
    (whenAction request 1 (onCreate dec request))).andThen
    (whenAction request 2 (onUpdate dec request))).andThen
    (whenAction request 3 (onDestroy request))).andThen
    (whenAction request 4 (onVoteRequest request))).andThen
    (whenAction request 5 (onVote request))

/-! ## Vote counting (`raft.go`, lines 51-79) -/

/-- The map `voteMap` of type `map[int]int`. -/
abbrev VoteMap := Int → Option Nat

/-- The assignment `voteMap[k] = v`. -/
def VoteMap.set (m : VoteMap) (k : Int) (v : Nat) : VoteMap :=
  fun j => if j = k then some v else m j

/-- The read `voteMap[k]`: zero for an absent key. -/
def VoteMap.get (m : VoteMap) (k : Int) : Nat := (m k).getD 0

/-- How a call of `countVotes` ends: the package-level `LeaderNode`
afterwards, the value sent on `done` (if any), whether the goroutine is left
blocked on `<-votes`, and the votes it has not received. -/
structure Tally where
  LeaderNode : Int
  done : Option Int
  blocked : Bool
  rest : List Request
deriving DecidableEq, Repr

/-- The loop `for i := 0; i < numNodes; i++` of `countVotes` with `k`
iterations left, fed the vote messages that arrive on `votes`. In the quorum
branch `LeaderNode := voteReq.Vote` declares a new local variable, which is
what is sent on `done`; the package-level variable is not assigned. -/
def countLoop (numQuorum : Nat) (LeaderNode : Int) : Nat → VoteMap → List Request → Tally
  | 0, _, vs => { LeaderNode := LeaderNode, done := none, blocked := false, rest := vs }
  | _ + 1, _, [] => { LeaderNode := LeaderNode, done := none, blocked := true, rest := [] }
  | k + 1, voteMap, voteReq :: vs =>
    let voteMap2 :=
      match voteMap voteReq.Vote with
      | some c => voteMap.set voteReq.Vote (c + 1)
      | none => voteMap.set voteReq.Vote 1
    if voteMap2.get voteReq.Vote > numQuorum then
      let localLeaderNode := voteReq.Vote
      { LeaderNode := LeaderNode, done := some localLeaderNode, blocked := false, rest := vs }
    else countLoop numQuorum LeaderNode k voteMap2 vs

/-- Function `countVotes`, given the globals `LeaderNode` and `currentNodeID`
and the vote messages arriving on `votes`. -/
def countVotes (LeaderNode currentNodeID : Int) (backends : List String)
    (votes : List Request) : Tally :=
  let numNodes := backends.length
  let numQuorum := (numNodes / 2) + 1
  let voteMap : VoteMap := VoteMap.set (fun _ => none) currentNodeID 1
  countLoop numQuorum LeaderNode numNodes voteMap votes

/-! ## Auxiliary definitions used in the proofs -/

/-- The records `rs` with indices `k, k+1, ...` stamped on them. -/
def stampFrom (k : Nat) : List Gif → List Gif
  | [] => []
  | r :: rs => { r with Index := k } :: stampFrom (k + 1) rs

/-! ## Sequential `Put` -/

theorem stampFrom_length (k : Nat) (rs : List Gif) :
    (stampFrom k rs).length = rs.length := by
  induction rs generalizing k with
  | nil => rfl
  | cons r rs ih => simp [stampFrom, ih]

theorem stampFrom_getElem? (k : Nat) (rs : List Gif) (i : Nat) :
    (stampFrom k rs)[i]? = rs[i]?.map (fun r => { r with Index := k + i }) := by
  induction rs generalizing k i with
  | nil => simp [stampFrom]
  | cons r rs ih =>
    cases i with
    | zero => simp [stampFrom]
    | succ i =>
      simp only [stampFrom, List.getElem?_cons_succ, ih]
      have : k + 1 + i = k + (i + 1) := by omega
      rw [this]

theorem stampFrom_map_Index (k : Nat) (rs : List Gif) :
    (stampFrom k rs).map Gif.Index = List.range' k rs.length := by
  induction rs generalizing k with
  | nil => rfl
  | cons r rs ih => simp [stampFrom, ih, List.range']

theorem set_append_last (l : List Gif) (a x : Gif) :
    (l ++ [a]).set l.length x = l ++ [x] := by
  induction l with
  | nil => rfl
  | cons b l ih => simp [ih]

theorem fetchTicket_eq (g : Gifs) (h : g.ticket + 1 < U64) :
    fetchTicket g = (g.ticket, { g with ticket := g.ticket + 1 }) := by
  have h1 : (g.ticket + 1) % U64 = g.ticket + 1 := Nat.mod_eq_of_lt h
  have h2 : (g.ticket + 1 + U64 - 1) % U64 = g.ticket := by
    have : g.ticket + 1 + U64 - 1 = g.ticket + U64 := by omega
    rw [this, Nat.add_mod_right]
    exact Nat.mod_eq_of_lt (by omega)
  unfold fetchTicket
  simp only [h1, h2]

theorem casDone_eq (g : Gifs) (h : g.done + 1 < U64) :
    casDone g g.done = (true, { g with done := g.done + 1 }) := by
  unfold casDone
  simp [Nat.mod_eq_of_lt h]

theorem Put_full (g : Gifs) (r : Gif) (hd : g.done = g.Data.length)
    (ht : g.ticket = g.Data.length) (hlt : g.Data.length + 1 < U64) :
    Put g r = .ok { Data := g.Data ++ [{ r with Index := g.Data.length }],
                    done := g.Data.length + 1, ticket := g.Data.length + 1 } := by
  have hc := casDone_eq
    (Gifs.mk (g.Data ++ [{ r with Index := g.Data.length }]) g.Data.length
      (g.Data.length + 1)) hlt
  simp only at hc
  unfold Put
  rw [fetchTicket_eq g (by omega)]
  simp [appendEmpty, writeSlot, ht, hd, set_append_last, hc]

theorem putAll_full (rs : List Gif) (g : Gifs) (hd : g.done = g.Data.length)
    (ht : g.ticket = g.Data.length) (hlt : g.Data.length + rs.length < U64) :
    putAll g rs = .ok { Data := g.Data ++ stampFrom g.Data.length rs,
                        done := g.Data.length + rs.length,
                        ticket := g.Data.length + rs.length } := by
  induction rs generalizing g with
  | nil =>
    cases g
    simp_all [putAll, stampFrom]
  | cons r rs ih =>
    simp only [List.length_cons] at hlt
    rw [putAll, Put_full g r hd ht (by omega)]
    simp only
    rw [ih _ (by simp) (by simp) (by simp; omega)]
    simp [stampFrom, Nat.add_assoc, Nat.add_comm 1]

/-! ## Stores reached by `Put` keep `done` within `Data` -/

theorem Put_wf (g g1 : Gifs) (r : Gif) (hp : Put g r = .ok g1) :
    g1.done ≤ g1.Data.length := by
  unfold Put at hp
  generalize fetchTicket g = tg at hp
  obtain ⟨t, g0⟩ := tg
  simp only [writeSlot, appendEmpty, List.length_append, List.length_singleton] at hp
  by_cases hlt : t < g0.Data.length + 1
  · simp only [hlt, if_true, casDone] at hp
    by_cases hd : g0.done = t
    · simp only [hd, if_true, Except.ok.injEq] at hp
      subst hp
      have := Nat.mod_le (t + 1) U64
      simp only [List.length_append, List.length_singleton, List.length_set]
      omega
    · simp [hd] at hp
  · simp [hlt] at hp

theorem putAll_wf (rs : List Gif) (g g2 : Gifs) (hwf : g.done ≤ g.Data.length)
    (h : putAll g rs = .ok g2) : g2.done ≤ g2.Data.length := by
  induction rs generalizing g with
  | nil =>
    simp only [putAll, Except.ok.injEq] at h
    subst h
    exact hwf
  | cons r rs ih =>
    simp only [putAll] at h
    cases hp : Put g r with
    | error e => simp [hp] at h
    | ok g1 =>
      simp only [hp] at h
      exact ih g1 (Put_wf g g1 r hp) h

/-! ## The connection handler: the branch a request takes -/

theorem andThen_skip (o : Outcome) (req : Request) (a : Int) (body : Conn → Outcome)
    (h : req.Action ≠ a) : o.andThen (whenAction req a body) = o := by
  cases o <;> simp [Outcome.andThen, whenAction, h]

theorem andThen_take (c : Conn) (req : Request) (a : Int) (body : Conn → Outcome)
    (h : req.Action = a) : (Outcome.ok c).andThen (whenAction req a body) = body c := by
  simp [Outcome.andThen, whenAction, h]

theorem handleConnection_update (dec : String → Decoded) (node : Node) (req : Request)
    (ha : req.Action = 2) :
    handleConnection dec node req = onUpdate dec req ⟨node, [], []⟩ := by
  unfold handleConnection
  simp only []
  rw [if_neg (by rw [ha]; decide), andThen_skip _ _ 0 _ (by rw [ha]; decide),
    andThen_skip _ _ 1 _ (by rw [ha]; decide), andThen_take _ _ 2 _ ha,
    andThen_skip _ _ 3 _ (by rw [ha]; decide), andThen_skip _ _ 4 _ (by rw [ha]; decide),
    andThen_skip _ _ 5 _ (by rw [ha]; decide)]

theorem handleConnection_destroy (dec : String → Decoded) (node : Node) (req : Request)
    (ha : req.Action = 3) :
    handleConnection dec node req = onDestroy req ⟨node, [], []⟩ := by
  unfold handleConnection
  simp only []
  rw [if_neg (by rw [ha]; decide), andThen_skip _ _ 0 _ (by rw [ha]; decide),
    andThen_skip _ _ 1 _ (by rw [ha]; decide), andThen_skip _ _ 2 _ (by rw [ha]; decide),
    andThen_take _ _ 3 _ ha, andThen_skip _ _ 4 _ (by rw [ha]; decide),
    andThen_skip _ _ 5 _ (by rw [ha]; decide)]

theorem handleConnection_voteRequest (dec : String → Decoded) (node : Node)
    (req : Request) (ha : req.Action = 4) :
    handleConnection dec node req = onVoteRequest req ⟨node, [], []⟩ := by
  unfold handleConnection
  simp only []
  rw [if_neg (by rw [ha]; decide), andThen_skip _ _ 0 _ (by rw [ha]; decide),
    andThen_skip _ _ 1 _ (by rw [ha]; decide), andThen_skip _ _ 2 _ (by rw [ha]; decide),
    andThen_skip _ _ 3 _ (by rw [ha]; decide), andThen_take _ _ 4 _ ha,
    andThen_skip _ _ 5 _ (by rw [ha]; decide)]

theorem onUpdate_ok (dec : String → Decoded) (node : Node) (req : Request) (r : Gif)
    (i : Nat) (hr : parseGifJson dec req.Data = .ok r) (hidx : req.Index = (i : Int))
    (hi : i < node.gifs.Data.length) (hwf : node.gifs.done ≤ node.gifs.Data.length) :
    onUpdate dec req ⟨node, [], []⟩ =
      .ok ⟨{ node with gifs := { node.gifs with Data := node.gifs.Data.set i r } },
           [Json.gifs ((node.gifs.Data.set i r).take node.gifs.done)], []⟩ := by
  have hin : (0 : Int) ≤ (i : Int) ∧ (i : Int) < (node.gifs.Data.length : Int) :=
    ⟨Int.ofNat_nonneg i, by exact_mod_cast hi⟩
  simp [onUpdate, hr, setAt, hidx, hin, writeAllGifs, allGifsJson, GetDone, hwf]

theorem onDestroy_ok (node : Node) (req : Request) (x : Gif)
    (i : Nat) (hidx : req.Index = (i : Int))
    (hx : node.gifs.Data[i]? = some x) (hwf : node.gifs.done ≤ node.gifs.Data.length) :
    onDestroy req ⟨node, [], []⟩ =
      .ok ⟨{ node with gifs := { node.gifs with Data := node.gifs.Data.set i x.Delete } },
           [Json.gifs ((node.gifs.Data.set i x.Delete).take node.gifs.done)], []⟩ := by
  have hi : i < node.gifs.Data.length := by
    by_contra hge
    rw [List.getElem?_eq_none (by omega)] at hx
    cases hx
  have hin : (0 : Int) ≤ (i : Int) ∧ (i : Int) < (node.gifs.Data.length : Int) :=
    ⟨Int.ofNat_nonneg i, by exact_mod_cast hi⟩
  simp [onDestroy, getAt, hidx, hin, hx, writeAllGifs, allGifsJson, GetDone, hwf]

theorem outOfRange_setAt (l : List Gif) (i : Int) (x : Gif)
    (h : i < 0 ∨ (l.length : Int) ≤ i) : setAt l i x = none := by
  unfold setAt
  rw [if_neg]
  omega

theorem outOfRange_getAt (l : List Gif) (i : Int)
    (h : i < 0 ∨ (l.length : Int) ≤ i) : getAt l i = none := by
  unfold getAt
  rw [if_neg]
  omega

theorem countLoop_LeaderNode (numQuorum : Nat) (leader : Int) (k : Nat) (m : VoteMap)
    (votes : List Request) : (countLoop numQuorum leader k m votes).LeaderNode = leader := by
  induction k generalizing m votes with
  | zero => simp [countLoop]
  | succ k ih =>
    cases votes with
    | nil => simp [countLoop]
    | cons v vs =>
      simp only [countLoop]
      split
      · rfl
      · exact ih _ _

/-! ## The claims -/

/-- C1: for every list `rs` of records (its length `N` below `2^64`, as any Go
slice length is), calling `Put` on a store from `NewGifs` once per record,
each call completed before the next starts, returns every time (no call is
left spinning: the first compare-and-swap succeeds), and afterwards `GetDone`
returns exactly `N` records; the record at position `i` has `Index = i` and
the `Name`, `Description`, `Url` and `Deleted` of the `i`-th record passed,
whatever `Index` that one carried, so the indices are `0, 1, ..., N-1`, each
once. -/
theorem Put_sequential_complete (rs : List Gif) (hN : rs.length < U64) :
    ∃ (g : Gifs) (l : List Gif),
      putAll NewGifs rs = .ok g ∧ GetDone g = .ok l ∧ l.length = rs.length ∧
      (∀ (i : Nat) (r : Gif), rs[i]? = some r →
        l[i]? = some { Name := r.Name, Description := r.Description, Url := r.Url,
                       Deleted := r.Deleted, Index := i }) ∧
      l.map Gif.Index = List.range rs.length := by
  have h := putAll_full rs NewGifs rfl rfl (by simpa [NewGifs] using hN)
  simp only [NewGifs, List.length_nil, Nat.zero_add, List.nil_append] at h
  refine ⟨_, stampFrom 0 rs, h, ?_, stampFrom_length 0 rs, ?_, ?_⟩
  · simp [GetDone, stampFrom_length]
  · intro i r hr
    rw [stampFrom_getElem?, hr]
    simp
  · rw [stampFrom_map_Index, List.range_eq_range']

/-- C1, at two records that both carry `Index = 9`. -/
theorem Put_sequential_complete_witness :
    ∃ (g : Gifs) (l : List Gif),
      putAll NewGifs [⟨"Keyboard Cat", "typing", "u0", false, 9⟩,
                      ⟨"Kevin Bacon", "free", "u1", false, 9⟩] = .ok g ∧
      GetDone g = .ok l ∧ l.length = 2 ∧
      (∀ (i : Nat) (r : Gif),
        [(⟨"Keyboard Cat", "typing", "u0", false, 9⟩ : Gif),
          ⟨"Kevin Bacon", "free", "u1", false, 9⟩][i]? = some r →
        l[i]? = some { Name := r.Name, Description := r.Description, Url := r.Url,
                       Deleted := r.Deleted, Index := i }) ∧
      l.map Gif.Index = List.range 2 :=
  Put_sequential_complete
    [⟨"Keyboard Cat", "typing", "u0", false, 9⟩, ⟨"Kevin Bacon", "free", "u1", false, 9⟩]
    (by decide)

/-- C2 (what the code does): two `Put` calls, of `a` and of `b`, run
concurrently from `NewGifs`. Writer 0 draws ticket 0 and appends (`Data` is a
one-cell array). Writer 1 draws ticket 1 and evaluates its `append`, which
copies the placeholder into a new two-cell array. Writer 0 then writes `a`
into slot 0 of the old array; writer 1 stores its slice in `Data` and writes
`b` into slot 1; both compare-and-swaps succeed. Both calls have returned,
`done = ticket = 2`, and `GetDone` returns the placeholder at published
position 0: the record `a` sits in the abandoned array. -/
theorem Put_published_slot_holds_placeholder (a b : Gif) :
    (run growslice (init [a, b]) [0, 1, 0, 0, 1, 0, 1, 1, 0, 1]).crashed = false ∧
    (run growslice (init [a, b]) [0, 1, 0, 0, 1, 0, 1, 1, 0, 1]).ws =
      [⟨a, PC.finished, 0, ⟨0, 1, 1⟩⟩, ⟨b, PC.finished, 1, ⟨1, 2, 2⟩⟩] ∧
    (run growslice (init [a, b]) [0, 1, 0, 0, 1, 0, 1, 1, 0, 1]).mem.done = 2 ∧
    (run growslice (init [a, b]) [0, 1, 0, 0, 1, 0, 1, 1, 0, 1]).mem.ticket = 2 ∧
    (run growslice (init [a, b]) [0, 1, 0, 0, 1, 0, 1, 1, 0, 1]).mem.heap =
      [[{ Name := a.Name, Description := a.Description, Url := a.Url,
          Deleted := a.Deleted, Index := 0 }],
       [placeholder,
        { Name := b.Name, Description := b.Description, Url := b.Url,
          Deleted := b.Deleted, Index := 1 }]] ∧
    GetDone (run growslice (init [a, b]) [0, 1, 0, 0, 1, 0, 1, 1, 0, 1]).mem.gifs =
      .ok [{ Name := "", Description := "", Url := "", Deleted := true, Index := 0 },
           { Name := b.Name, Description := b.Description, Url := b.Url,
             Deleted := b.Deleted, Index := 1 }] := by
  have h1 : (0 + 1) % U64 = 1 := by decide
  have h2 : (1 + U64 - 1) % U64 = 0 := by decide
  have h3 : (1 + 1) % U64 = 2 := by decide
  have h4 : (2 + U64 - 1) % U64 = 1 := by decide
  have hA : run growslice (init [a, b]) [0, 1, 0, 0, 1]
      = ⟨⟨[[placeholder], [placeholder, placeholder]], ⟨0, 1, 1⟩, 0, 2⟩,
         [⟨a, PC.appended, 0, ⟨0, 1, 1⟩⟩, ⟨b, PC.grown, 1, ⟨1, 2, 2⟩⟩], false⟩ := by
    simp [run, init, step, stepWriter, fetchTicket, evalAppend, growslice,
      Mem.gifs, newMem, h1, h2, h3, h4]
  have hB : run growslice
      ⟨⟨[[placeholder], [placeholder, placeholder]], ⟨0, 1, 1⟩, 0, 2⟩,
         [⟨a, PC.appended, 0, ⟨0, 1, 1⟩⟩, ⟨b, PC.grown, 1, ⟨1, 2, 2⟩⟩], false⟩
      [0, 1, 1, 0, 1]
      = ⟨⟨[[{ a with Index := 0 }], [placeholder, { b with Index := 1 }]], ⟨1, 2, 2⟩, 2, 2⟩,
         [⟨a, PC.finished, 0, ⟨0, 1, 1⟩⟩, ⟨b, PC.finished, 1, ⟨1, 2, 2⟩⟩], false⟩ := by
    simp [run, step, stepWriter, casDone, Mem.gifs, h1, h3]
  have hrun : run growslice (init [a, b]) [0, 1, 0, 0, 1, 0, 1, 1, 0, 1]
      = ⟨⟨[[{ a with Index := 0 }], [placeholder, { b with Index := 1 }]], ⟨1, 2, 2⟩, 2, 2⟩,
         [⟨a, PC.finished, 0, ⟨0, 1, 1⟩⟩, ⟨b, PC.finished, 1, ⟨1, 2, 2⟩⟩], false⟩ := by
    have hsplit : run growslice (init [a, b]) [0, 1, 0, 0, 1, 0, 1, 1, 0, 1]
        = run growslice (run growslice (init [a, b]) [0, 1, 0, 0, 1]) [0, 1, 1, 0, 1] := by
      unfold run
      rw [← List.foldl_append]
      rfl
    rw [hsplit, hA, hB]
  rw [hrun]
  simp [GetDone, Mem.gifs, placeholder]

/-- C3 as stated fails: in the store reached by two `Put` calls, the update
request with Index 1 whose payload carries no `Index` (it decodes to 0) leaves
the record at position 1 with `Index = 0`, not 1. -/
theorem update_Index_not_stable :
    ∃ (g : Gifs) (c : Conn),
      putAll NewGifs [⟨"a", "", "", false, 0⟩, ⟨"b", "", "", false, 0⟩] = .ok g ∧
      handleConnection (fun _ => Decoded.value ⟨"b2", "", "", false, 0⟩) ⟨g, 0, -1⟩
        ⟨2, "payload", 1, 0, 0, 0⟩ = .ok c ∧
      (c.node.gifs.Data[1]?).map Gif.Index = some 0 ∧
      (c.node.gifs.Data[1]?).map Gif.Index ≠ some 1 :=
  ⟨_, _, rfl, rfl, rfl, by decide⟩

/-- C3, amended: for every store state reached by `Put` calls, every in-range
position `i` and every payload record `r` (as `parseGifJson` returns it: an
absent `Index` is 0), after the update request (Action 2) with Index `i` and
payload `r` is handled, the record at position `i` of the store has the
`Index` of `r`; it is `i` exactly when the payload carries `Index = i`. -/
theorem update_takes_payload_Index (dec : String → Decoded) (rs : List Gif) (g : Gifs)
    (id leader : Int) (req : Request) (r : Gif) (i : Nat)
    (hreach : putAll NewGifs rs = .ok g) (hi : i < g.Data.length)
    (ha : req.Action = 2) (hidx : req.Index = (i : Int))
    (hr : parseGifJson dec req.Data = .ok r) :
    ∃ c : Conn, handleConnection dec ⟨g, id, leader⟩ req = .ok c ∧
      (c.node.gifs.Data[i]?).map Gif.Index = some r.Index ∧
      ((c.node.gifs.Data[i]?).map Gif.Index = some i ↔ r.Index = i) := by
  have hwf : g.done ≤ g.Data.length := putAll_wf rs NewGifs g (by simp [NewGifs]) hreach
  rw [handleConnection_update dec _ req ha, onUpdate_ok dec ⟨g, id, leader⟩ req r i hr hidx hi hwf]
  refine ⟨_, rfl, ?_, ?_⟩
  · simp [List.getElem?_set_self hi]
  · simp [List.getElem?_set_self hi]

/-- C3 amended, at one stored record and a payload that carries `Index = 7`. -/
theorem update_takes_payload_Index_witness :
    putAll NewGifs [⟨"a", "", "", false, 0⟩] = .ok ⟨[⟨"a", "", "", false, 0⟩], 1, 1⟩ ∧
    ∃ c : Conn,
      handleConnection (fun _ => Decoded.value ⟨"a2", "", "", false, 7⟩)
        ⟨⟨[⟨"a", "", "", false, 0⟩], 1, 1⟩, 0, -1⟩ ⟨2, "payload", 0, 0, 0, 0⟩ = .ok c ∧
      (c.node.gifs.Data[0]?).map Gif.Index = some 7 ∧
      ((c.node.gifs.Data[0]?).map Gif.Index = some 0 ↔ 7 = 0) :=
  ⟨rfl, update_takes_payload_Index (fun _ => Decoded.value ⟨"a2", "", "", false, 7⟩)
    [⟨"a", "", "", false, 0⟩] ⟨[⟨"a", "", "", false, 0⟩], 1, 1⟩ 0 (-1)
    ⟨2, "payload", 0, 0, 0, 0⟩ ⟨"a2", "", "", false, 7⟩ 0 rfl (by decide) rfl rfl rfl⟩

/-- C4 as stated fails: on the empty store a delete request and an update
request with Index 0 (out of range) end in the index-out-of-range panic that
stops the process, with nothing written on the connection; the handler does
not come back with an error for the caller. -/
theorem outOfRange_not_signalled :
    handleConnection (fun _ => Decoded.value ⟨"a", "", "", false, 0⟩) ⟨NewGifs, 0, -1⟩
        ⟨3, "", 0, 0, 0, 0⟩ = .fault .indexOutOfRange ⟨⟨NewGifs, 0, -1⟩, [], []⟩ ∧
    handleConnection (fun _ => Decoded.value ⟨"a", "", "", false, 0⟩) ⟨NewGifs, 0, -1⟩
        ⟨2, "payload", 0, 0, 0, 0⟩ = .fault .indexOutOfRange ⟨⟨NewGifs, 0, -1⟩, [], []⟩ ∧
    ¬ ∃ c : Conn,
      handleConnection (fun _ => Decoded.value ⟨"a", "", "", false, 0⟩) ⟨NewGifs, 0, -1⟩
        ⟨3, "", 0, 0, 0, 0⟩ = .ok c ∧ c.written ≠ [] :=
  ⟨rfl, rfl, fun ⟨_, h, _⟩ => Outcome.noConfusion h⟩

/-- C4, amended: for every store state and every request index that is
negative or at least the length of `Data`, handling an update request
(Action 2) or a delete request (Action 3) with that index stops the process:
with the index-out-of-range run-time panic, or, for an update whose payload
does not decode, with `log.Fatal` before the index is used. At that point
every record and both counters are unchanged and nothing has been written on
the connection; the request is not handled as a silent no-op. -/
theorem outOfRange_stops_unchanged (dec : String → Decoded) (node : Node) (req : Request)
    (ha : req.Action = 2 ∨ req.Action = 3)
    (hidx : req.Index < 0 ∨ (node.gifs.Data.length : Int) ≤ req.Index) :
    ∃ f : Fault, handleConnection dec node req = .fault f ⟨node, [], []⟩ ∧
      (f = Fault.indexOutOfRange ∨
        (req.Action = 2 ∧ f = Fault.fatal ∧ parseGifJson dec req.Data = .error .fatal)) := by
  rcases ha with ha | ha
  · rw [handleConnection_update dec node req ha]
    unfold onUpdate
    cases hp : parseGifJson dec req.Data with
    | error e =>
      have he : e = Fault.fatal := by
        unfold parseGifJson at hp
        split at hp <;> simp_all
      subst he
      exact ⟨_, rfl, Or.inr ⟨ha, rfl, rfl⟩⟩
    | ok r =>
      simp only [outOfRange_setAt _ _ _ hidx]
      exact ⟨_, rfl, Or.inl rfl⟩
  · rw [handleConnection_destroy dec node req ha]
    unfold onDestroy
    simp only [outOfRange_getAt _ _ hidx]
    exact ⟨_, rfl, Or.inl rfl⟩

/-- C4 amended, at a delete request with Index -1 on a store of one record. -/
theorem outOfRange_stops_unchanged_witness :
    ∃ f : Fault,
      handleConnection (fun _ => Decoded.err) ⟨⟨[⟨"a", "", "", false, 0⟩], 1, 1⟩, 0, -1⟩
        ⟨3, "", -1, 0, 0, 0⟩ = .fault f ⟨⟨⟨[⟨"a", "", "", false, 0⟩], 1, 1⟩, 0, -1⟩, [], []⟩ ∧
      (f = Fault.indexOutOfRange ∨
        ((3 : Int) = 2 ∧ f = Fault.fatal ∧
          parseGifJson (fun _ => Decoded.err) "" = .error .fatal)) :=
  outOfRange_stops_unchanged (fun _ => Decoded.err)
    ⟨⟨[⟨"a", "", "", false, 0⟩], 1, 1⟩, 0, -1⟩ ⟨3, "", -1, 0, 0, 0⟩ (Or.inr rfl)
    (Or.inl (by decide))

/-- C5: read-your-writes for update. For every store state with published
view `l` (length `L`), every index `i < L` and every payload record `r`,
handling the update request (Action 2) with Index `i` and payload `r` returns,
writes the new list on the connection, and `GetDone` afterwards returns a
sequence of the same length `L` whose element at position `i` equals `r` in
every field and whose elements at all positions `j ≠ i` are unchanged. -/
theorem update_read_your_writes (dec : String → Decoded) (node : Node) (req : Request)
    (r : Gif) (i : Nat) (l : List Gif)
    (hl : GetDone node.gifs = .ok l) (hi : i < l.length)
    (ha : req.Action = 2) (hidx : req.Index = (i : Int))
    (hr : parseGifJson dec req.Data = .ok r) :
    ∃ (c : Conn) (l2 : List Gif),
      handleConnection dec node req = .ok c ∧ c.written = [Json.gifs l2] ∧
      GetDone c.node.gifs = .ok l2 ∧ l2.length = l.length ∧ l2[i]? = some r ∧
      ∀ j : Nat, j ≠ i → l2[j]? = l[j]? := by
  have hwf : node.gifs.done ≤ node.gifs.Data.length := by
    unfold GetDone at hl
    by_contra hn
    simp [hn] at hl
  have hleq : l = node.gifs.Data.take node.gifs.done := by
    unfold GetDone at hl
    simp only [hwf, if_true, Except.ok.injEq] at hl
    exact hl.symm
  subst hleq
  have hid : i < node.gifs.done := by
    simp only [List.length_take] at hi
    omega
  have hiD : i < node.gifs.Data.length := by omega
  rw [handleConnection_update dec node req ha, onUpdate_ok dec node req r i hr hidx hiD hwf]
  refine ⟨_, (node.gifs.Data.set i r).take node.gifs.done, rfl, rfl, ?_, ?_, ?_, ?_⟩
  · simp [GetDone, hwf]
  · simp
  · rw [List.getElem?_take_of_lt hid, List.getElem?_set_self hiD]
  · intro j hj
    by_cases hjd : j < node.gifs.done
    · rw [List.getElem?_take_of_lt hjd, List.getElem?_take_of_lt hjd,
        List.getElem?_set_ne (fun e => hj e.symm)]
    · rw [List.getElem?_eq_none (by simp; omega), List.getElem?_eq_none (by simp; omega)]

/-- C5, at a store of two published records and an update of the second. -/
theorem update_read_your_writes_witness :
    GetDone ⟨[⟨"a", "", "", false, 0⟩, ⟨"b", "", "", false, 1⟩], 2, 2⟩
      = .ok [⟨"a", "", "", false, 0⟩, ⟨"b", "", "", false, 1⟩] ∧
    ∃ (c : Conn) (l2 : List Gif),
      handleConnection (fun _ => Decoded.value ⟨"b2", "d", "u", false, 1⟩)
        ⟨⟨[⟨"a", "", "", false, 0⟩, ⟨"b", "", "", false, 1⟩], 2, 2⟩, 0, -1⟩
        ⟨2, "payload", 1, 0, 0, 0⟩ = .ok c ∧ c.written = [Json.gifs l2] ∧
      GetDone c.node.gifs = .ok l2 ∧
      l2.length = [(⟨"a", "", "", false, 0⟩ : Gif), ⟨"b", "", "", false, 1⟩].length ∧
      l2[1]? = some ⟨"b2", "d", "u", false, 1⟩ ∧
      ∀ j : Nat, j ≠ 1 →
        l2[j]? = [(⟨"a", "", "", false, 0⟩ : Gif), ⟨"b", "", "", false, 1⟩][j]? :=
  ⟨rfl, update_read_your_writes (fun _ => Decoded.value ⟨"b2", "d", "u", false, 1⟩)
    ⟨⟨[⟨"a", "", "", false, 0⟩, ⟨"b", "", "", false, 1⟩], 2, 2⟩, 0, -1⟩
    ⟨2, "payload", 1, 0, 0, 0⟩ ⟨"b2", "d", "u", false, 1⟩ 1
    [⟨"a", "", "", false, 0⟩, ⟨"b", "", "", false, 1⟩] rfl (by decide) rfl rfl rfl⟩

/-- C6: delete is an idempotent flag flip. For every store state (its
published counter within `Data`, so that `GetDone` is defined) and every
in-range index `i` with record `x`, handling the delete request (Action 3)
with Index `i` returns; record `i` becomes `x` with `Deleted = true` and the
same `Name`, `Description`, `Url` and `Index`; every other record, both
counters, the node's other globals and the length of `GetDone` are unchanged;
and handling the same request a second time returns as well, with exactly the
same store state and the same response. -/
theorem delete_idempotent (dec : String → Decoded) (node : Node) (req : Request)
    (x : Gif) (i : Nat)
    (hwf : node.gifs.done ≤ node.gifs.Data.length)
    (ha : req.Action = 3) (hidx : req.Index = (i : Int))
    (hx : node.gifs.Data[i]? = some x) :
    ∃ c : Conn, handleConnection dec node req = .ok c ∧
      c.node.gifs.Data[i]? =
        some { Name := x.Name, Description := x.Description, Url := x.Url,
               Deleted := true, Index := x.Index } ∧
      (∀ j : Nat, j ≠ i → c.node.gifs.Data[j]? = node.gifs.Data[j]?) ∧
      c.node.gifs.done = node.gifs.done ∧ c.node.gifs.ticket = node.gifs.ticket ∧
      c.node.currentNodeID = node.currentNodeID ∧ c.node.LeaderNode = node.LeaderNode ∧
      (∃ l l2 : List Gif, GetDone node.gifs = .ok l ∧ GetDone c.node.gifs = .ok l2 ∧
        l2.length = l.length ∧ c.written = [Json.gifs l2]) ∧
      ∃ c2 : Conn, handleConnection dec c.node req = .ok c2 ∧ c2.node = c.node ∧
        c2.written = c.written := by
  have hi : i < node.gifs.Data.length := by
    by_contra hge
    rw [List.getElem?_eq_none (by omega)] at hx
    cases hx
  rw [handleConnection_destroy dec node req ha, onDestroy_ok node req x i hidx hx hwf]
  refine ⟨_, rfl, ?_, ?_, rfl, rfl, rfl, rfl, ?_, ?_⟩
  · show (node.gifs.Data.set i x.Delete)[i]? = _
    rw [List.getElem?_set_self hi]
    rfl
  · intro j hj
    show (node.gifs.Data.set i x.Delete)[j]? = _
    rw [List.getElem?_set_ne (fun e => hj e.symm)]
  · refine ⟨node.gifs.Data.take node.gifs.done,
      (node.gifs.Data.set i x.Delete).take node.gifs.done, ?_, ?_, ?_, rfl⟩
    · simp [GetDone, hwf]
    · simp [GetDone, hwf]
    · simp
  · have hx2 : (node.gifs.Data.set i x.Delete)[i]? = some x.Delete :=
      List.getElem?_set_self hi
    have h2 := onDestroy_ok
      { node with gifs := { node.gifs with Data := node.gifs.Data.set i x.Delete } }
      req x.Delete i hidx hx2 (by simpa using hwf)
    rw [handleConnection_destroy dec _ req ha, h2]
    refine ⟨_, rfl, ?_, ?_⟩
    · simp [Gif.Delete, List.set_set]
    · simp [Gif.Delete, List.set_set]

/-- C6, at a store of two published records and a delete of the first. -/
theorem delete_idempotent_witness :
    ∃ c : Conn,
      handleConnection (fun _ => Decoded.err)
        ⟨⟨[⟨"a", "d", "u", false, 0⟩, ⟨"b", "", "", false, 1⟩], 2, 2⟩, 0, -1⟩
        ⟨3, "", 0, 0, 0, 0⟩ = .ok c ∧
      c.node.gifs.Data[0]? = some ⟨"a", "d", "u", true, 0⟩ ∧
      ∃ c2 : Conn, handleConnection (fun _ => Decoded.err) c.node ⟨3, "", 0, 0, 0, 0⟩ = .ok c2 ∧
        c2.node = c.node ∧ c2.written = c.written :=
  (delete_idempotent (fun _ => Decoded.err)
    ⟨⟨[⟨"a", "d", "u", false, 0⟩, ⟨"b", "", "", false, 1⟩], 2, 2⟩, 0, -1⟩
    ⟨3, "", 0, 0, 0, 0⟩ ⟨"a", "d", "u", false, 0⟩ 0 (by decide) rfl rfl rfl).imp
    (fun _ h => ⟨h.1, h.2.1, h.2.2.2.2.2.2.2.2⟩)

/-- C7 (what the code does): for every vote-request message (Action 4) and
every value of `LeaderNode` and `currentNodeID`, the handler writes back the
encoding of the request it received (Action 4, the sender's own `SenderID` and
`Vote`), which is not the encoding of the vote-response it has built. -/
theorem voteRequest_echoes_request (dec : String → Decoded) (node : Node)
    (d : String) (i v t s : Int) :
    handleConnection dec node ⟨4, d, i, v, t, s⟩
      = .ok ⟨node, [encodeRequest ⟨4, d, i, v, t, s⟩], []⟩ ∧
    (voteResponse node ⟨4, d, i, v, t, s⟩).Action = 5 ∧
    (voteResponse node ⟨4, d, i, v, t, s⟩).SenderID = node.currentNodeID ∧
    (voteResponse node ⟨4, d, i, v, t, s⟩).Vote
      = (if node.LeaderNode = -1 then s else node.LeaderNode) ∧
    encodeRequest ⟨4, d, i, v, t, s⟩ ≠ encodeRequest (voteResponse node ⟨4, d, i, v, t, s⟩) := by
  refine ⟨?_, ?_, ?_, ?_, ?_⟩
  · rw [handleConnection_voteRequest dec node _ rfl]
    rfl
  · unfold voteResponse
    split <;> rfl
  · unfold voteResponse
    split <;> rfl
  · unfold voteResponse
    split <;> rfl
  · intro h
    have h2 : (4 : Int) = (voteResponse node ⟨4, d, i, v, t, s⟩).Action := by
      simp only [encodeRequest, Json.request.injEq] at h
      exact congrArg Request.Action h
    have h3 : (voteResponse node ⟨4, d, i, v, t, s⟩).Action = 5 := by
      unfold voteResponse
      split <;> rfl
    rw [h3] at h2
    exact absurd h2 (by decide)

/-- C8 (what the code does): with three backends and own identity `c`, after
a single received vote for `c` (tally 2 = 3/2 + 1) `countVotes` has declared
no winner and waits for the next vote; two votes for `c` (tally 3) are needed
before it sends `c` on `done`. -/
theorem countVotes_needs_more_than_quorum (leader c : Int) (b1 b2 b3 : String)
    (s1 s2 : Int) :
    countVotes leader c [b1, b2, b3] [⟨5, "", 0, c, 0, s1⟩]
      = { LeaderNode := leader, done := none, blocked := true, rest := [] } ∧
    countVotes leader c [b1, b2, b3] [⟨5, "", 0, c, 0, s1⟩, ⟨5, "", 0, c, 0, s2⟩]
      = { LeaderNode := leader, done := some c, blocked := false, rest := [] } := by
  constructor <;>
    simp [countVotes, countLoop, VoteMap.set, VoteMap.get]

/-- C9 (what the code does): `countVotes` never changes the package-level
`LeaderNode`; with three backends, own identity 0 and `LeaderNode = -1`, two
votes for 0 reach the quorum condition, 0 is sent on `done`, and `LeaderNode`
is still -1. -/
theorem countVotes_leaves_LeaderNode :
    (∀ (leader me : Int) (backends : List String) (votes : List Request),
      (countVotes leader me backends votes).LeaderNode = leader) ∧
    countVotes (-1) 0 ["b1", "b2", "b3"] [⟨5, "", 0, 0, 0, 1⟩, ⟨5, "", 0, 0, 0, 2⟩]
      = { LeaderNode := -1, done := some 0, blocked := false, rest := [] } := by
  refine ⟨fun leader me backends votes => countLoop_LeaderNode _ _ _ _ _, ?_⟩
  simp [countVotes, countLoop, VoteMap.set, VoteMap.get]

/-- C10 (what the code does): with two `Put` calls, let writer 0 draw ticket
0, then writer 1 draw ticket 1 and append (evaluate `append` and store its
result), whatever capacity the runtime picks. Writer 1 is then about to write
slot 1 while `Data` has length 1, and its next step is the index-out-of-range
panic. -/
theorem Put_slot_write_out_of_range (grow : Nat → Nat → Nat) (a b : Gif) :
    (run grow (init [a, b]) [0, 1, 1, 1]).crashed = false ∧
    (run grow (init [a, b]) [0, 1, 1, 1]).ws[1]?
      = some ⟨b, PC.appended, 1, ⟨0, 1, grow 0 1⟩⟩ ∧
    (run grow (init [a, b]) [0, 1, 1, 1]).mem.Data.len = 1 ∧
    (run grow (init [a, b]) [0, 1, 1, 1]).mem.gifs.Data.length = 1 ∧
    stepWriter grow (run grow (init [a, b]) [0, 1, 1, 1]).mem
      ⟨b, PC.appended, 1, ⟨0, 1, grow 0 1⟩⟩ = none ∧
    (step grow (run grow (init [a, b]) [0, 1, 1, 1]) 1).crashed = true := by
  have h1 : (0 + 1) % U64 = 1 := by decide
  have h2 : (1 + U64 - 1) % U64 = 0 := by decide
  have h3 : (1 + 1) % U64 = 2 := by decide
  have h4 : (2 + U64 - 1) % U64 = 1 := by decide
  have hrun : run grow (init [a, b]) [0, 1, 1, 1]
      = ⟨⟨[placeholder :: List.replicate (grow 0 1 - 1)
              { Name := "", Description := "", Url := "", Deleted := false, Index := 0 }],
           ⟨0, 1, grow 0 1⟩, 0, 2⟩,
         [⟨a, PC.ticketed, 0, ⟨0, 0, 0⟩⟩, ⟨b, PC.appended, 1, ⟨0, 1, grow 0 1⟩⟩], false⟩ := by
    simp [run, init, step, stepWriter, fetchTicket, evalAppend, Mem.gifs, newMem,
      h1, h2, h3, h4]
  rw [hrun]
  simp [step, stepWriter, Mem.gifs]

end GIFSpot
